import Mathlib

/-!
# Verification of the kousoku stepper-motor controller

A shallow embedding of the motion-controller firmware
(src/arduino/kousoku5/kousoku5.ino; the closely related variant in
src/unnamed/part_000 shares the same planner, scheduler and command
handler).  The embedding covers:

* the per-axis mutable state (the firmware's parallel global arrays,
  gathered into one Axis structure per motor),
* the step scheduler handleStep, driven once per timer compare-match
  (one call per half-period of the step output),
* the command protocol handler processCommand over 11-byte frames,
* the trapezoidal/triangular velocity-profile planner inlined in the
  start-command branch of processCommand.

Modelling conventions:

* C float arithmetic is embedded as exact rational arithmetic.  The one
  float operation with no rational counterpart, sqrtf in the triangular
  planner branch, is handled by additionally carrying the exact square
  of the recomputed peak speed (field planPeakSq); the stored peak speed
  itself uses the computable stand-in Rat.sqrt, which is exact on
  perfect squares, and no theorem below depends on its rounding.
* unsigned int is 16 bits and unsigned long is 32 bits (AVR); casts
  from float to these types truncate toward zero and wrap, which is
  made explicit by castU16 / castU32.
* Hardware effects visible to the firmware are kept as state: the step
  port bit, the DIR and ENA pin levels, and the OCRnA timer compare
  register of the axis timer.
-/

namespace Kousoku

/-- Truncate a rational to a natural number, as the C cast of a float to
the 16-bit unsigned int does on AVR (truncation toward zero on the
nonnegative values the firmware casts, wrapping modulo 2^16). -/
def castU16 (q : ℚ) : ℕ := ⌊q⌋₊ % 65536

/-- Truncate a rational to a natural number, as the C cast of a float to
the 32-bit unsigned long does on AVR (truncation toward zero on the
nonnegative values the firmware casts, wrapping modulo 2^32). -/
def castU32 (q : ℚ) : ℕ := ⌊q⌋₊ % 4294967296

/-- (unsigned long)(x + 0.5f): round a nonnegative distance to the
nearest whole step, as the planner does. -/
def ulRound (q : ℚ) : ℕ := castU32 (q + 1/2)

/-- OCRnA value written by setupTimer3/4/5: (16 * interval_us / 2) - 1 in
16-bit unsigned arithmetic. -/
def ocrSetup (i : ℕ) : ℕ := (16 * i % 65536 / 2 + 65535) % 65536

/-- OCRnA value written from handleStep:
(uint16_t)((16UL * interval / 2UL) - 1UL), i.e. 32-bit arithmetic
truncated to 16 bits. -/
def ocr32 (i : ℕ) : ℕ := (16 * i / 2 + 4294967295) % 4294967296 % 65536

/-- 1 rotation = 200 * 2 microsteps (1/2 microstepping). -/
def stepsPerRev : ℕ := 400

/-- minStartSpeedSps = 500.0f steps/s. -/
def minStartSpeedSps : ℚ := 500

/-- targetRampTimeSec = 0.2f seconds. -/
def targetRampTimeSec : ℚ := 1/5

/-- rpmToIntervalUs: half-period in microseconds for a commanded rpm;
0 for rpm <= 0.  The product rpm * stepsPerRev is exact long
arithmetic in the source. -/
def rpmToIntervalUs (rpm : ℤ) : ℕ :=
  if rpm ≤ 0 then 0
  else castU16 (1000000 / (((rpm * (stepsPerRev : ℤ) : ℤ) : ℚ) / 60))

/-- rpmToSps: steps per second for a commanded rpm; 0 for rpm <= 0. -/
def rpmToSps (rpm : ℤ) : ℚ :=
  if rpm ≤ 0 then 0 else (rpm : ℚ) * (stepsPerRev : ℚ) / 60

/-- spsToIntervalUs: half-period in microseconds for a speed in steps/s;
0 for sps <= 0. -/
def spsToIntervalUs (sps : ℚ) : ℕ :=
  if sps ≤ 0 then 0 else castU16 (1000000 / sps)

/-- Per-axis state: the slice of the firmware's global arrays belonging
to one motor index, together with that motor's hardware lines and timer
compare register. -/
structure Axis where
  stepHigh : Bool
  stepInterval : ℕ
  motorEnabled : Bool
  remainingSteps : ℕ
  pendingIntervalUpdate : Bool
  pendingIntervalUs : ℕ
  planActive : Bool
  planTotalSteps : ℕ
  planStepsDone : ℕ
  planAccelSteps : ℕ
  planCruiseSteps : ℕ
  planDecelSteps : ℕ
  planPeakSpeedSps : ℚ
  planPeakSq : ℚ
  useTrapezoid : Bool
  currentSpeedSps : ℚ
  targetSpeedSps : ℚ
  accelerationSps2 : ℚ
  ocr : ℕ
  stepPin : Bool
  enaHigh : Bool
  dirHigh : Bool
deriving DecidableEq

/-- The body of the if (stepHigh) branch of handleStep: drive the step
port high; on bounded motion consume one step (and one plan step), and
disable the axis when the count is exhausted; then apply a queued
pending interval update to the timer compare register. -/
def risingWork (a : Axis) : Axis :=
  let a1 := { a with stepPin := true }
  let a2 :=
    if 0 < a1.remainingSteps then
      let a3 := { a1 with
        remainingSteps := a1.remainingSteps - 1,
        planStepsDone :=
          if a1.planActive then a1.planStepsDone + 1 else a1.planStepsDone }
      if a3.remainingSteps = 0 then
        { a3 with enaHigh := true, motorEnabled := false, planActive := false }
      else a3
    else a1
  if a2.pendingIntervalUpdate then
    let a4 := { a2 with pendingIntervalUpdate := false }
    if 0 < a4.pendingIntervalUs then
      { a4 with stepInterval := a4.pendingIntervalUs,
                ocr := ocr32 a4.pendingIntervalUs }
    else a4
  else a2

/-- The else branch of handleStep: drive the step port low. -/
def fallingWork (a : Axis) : Axis := { a with stepPin := false }

/-- The speed recomputed by the trapezoid section of handleStep, for the
state reached after the edge work of the current half-period. -/
def nextSpeed (a : Axis) : ℚ :=
  let accel := max a.accelerationSps2 1
  let cur := if a.currentSpeedSps < 1 then minStartSpeedSps else a.currentSpeedSps
  let dt : ℚ := (a.stepInterval : ℚ) / 2000000
  if a.remainingSteps = 0 then
    -- unbounded motion: track the target speed
    if 0 < a.targetSpeedSps ∧ cur < a.targetSpeedSps then
      min (cur + accel * dt) a.targetSpeedSps
    else if 0 < a.targetSpeedSps then a.targetSpeedSps
    else cur
  else if a.planActive then
    -- precomputed trapezoidal / triangular profile
    if a.planStepsDone < a.planAccelSteps then
      if cur < a.planPeakSpeedSps then
        min (cur + accel * dt) a.planPeakSpeedSps
      else cur
    else if a.planStepsDone < a.planAccelSteps + a.planCruiseSteps then
      a.planPeakSpeedSps
    else
      max (cur - accel * dt) minStartSpeedSps
  else
    -- fallback: dynamic decision from the remaining step count
    let stepsToStop := cur * cur / (2 * accel)
    if (a.remainingSteps : ℚ) ≤ stepsToStop + 1 then
      max (cur - accel * dt) minStartSpeedSps
    else if 0 < a.targetSpeedSps ∧ cur < a.targetSpeedSps then
      min (cur + accel * dt) a.targetSpeedSps
    else if 0 < a.targetSpeedSps then a.targetSpeedSps
    else cur

/-- The trapezoid acceleration section at the end of handleStep: update
the current speed every half-period, and push the corresponding
half-period interval to the timer compare register when it changed. -/
def trapezoidSection (a : Axis) : Axis :=
  if a.useTrapezoid ∧ a.motorEnabled then
    let cur1 := nextSpeed a
    let newInterval := spsToIntervalUs cur1
    if 0 < newInterval ∧ newInterval ≠ a.stepInterval then
      { a with currentSpeedSps := cur1, stepInterval := newInterval,
               ocr := ocr32 newInterval }
    else
      { a with currentSpeedSps := cur1 }
  else a

/-- handleStep: one timer compare-match of the axis timer (one
half-period of the step output).  Toggle the step level; on the rising
edge consume a step and apply any pending interval update; then run the
trapezoid speed update. -/
def handleStep (a : Axis) : Axis :=
  if a.motorEnabled then
    let a1 : Axis := { a with stepHigh := !a.stepHigh }
    trapezoidSection (if a1.stepHigh then risingWork a1 else fallingWork a1)
  else a

/-! ## Command protocol handler -/

/-- atol character class: C isspace. -/
def isSpaceByte (c : ℕ) : Bool := c = 32 ∨ (9 ≤ c ∧ c ≤ 13)

/-- atol character class: C isdigit. -/
def isDigitByte (c : ℕ) : Bool := 48 ≤ c ∧ c ≤ 57

/-- Accumulate the leading run of decimal digits, as atol does after the
optional sign; stops at the first non-digit (including the NUL
terminator the handler appends). -/
def digitsVal : List ℕ → ℕ → ℕ
  | [], acc => acc
  | c :: rest, acc =>
      if isDigitByte c then digitsVal rest (acc * 10 + (c - 48)) else acc

/-- C atol on the 6-byte value field: skip whitespace, read an optional
sign, then the longest run of digits; 0 when there are none. -/
def atol (cs : List ℕ) : ℤ :=
  match cs.dropWhile isSpaceByte with
  | [] => 0
  | c :: rest =>
      if c = 43 then (digitsVal rest 0 : ℤ)
      else if c = 45 then -(digitsVal rest 0 : ℤ)
      else (digitsVal (c :: rest) 0 : ℤ)

/-- An 11-byte command frame, indexed as the byte array cmd[0..10]. -/
def Frame : Type := Fin 11 → ℕ

/-- XOR checksum of frame bytes 1..8. -/
def checksum8 (f : Frame) : ℕ :=
  f 1 ^^^ f 2 ^^^ f 3 ^^^ f 4 ^^^ f 5 ^^^ f 6 ^^^ f 7 ^^^ f 8

/-- The 6 value-field bytes cmd[3..8]. -/
def valueBytes (f : Frame) : List ℕ := [f 3, f 4, f 5, f 6, f 7, f 8]

/-- The phase lengths and peak speed computed by the planner. -/
structure PlanResult where
  accelSteps : ℕ
  cruiseSteps : ℕ
  decelSteps : ℕ
  peakSpeedSps : ℚ
  peakSq : ℚ
deriving DecidableEq

/-- accelStepsF: unconstrained acceleration distance in steps
(vtar^2 - v0^2) / (2 a), or 0 when no acceleration is needed. -/
def accelDistF (aq v0 vtar : ℚ) : ℚ :=
  if v0 < vtar then (vtar * vtar - v0 * v0) / (2 * aq) else 0

/-- decelStepsF: unconstrained deceleration distance in steps
(vtar^2 - vend^2) / (2 a), or 0 when no deceleration is needed. -/
def decelDistF (aq vend vtar : ℚ) : ℚ :=
  if vend < vtar then (vtar * vtar - vend * vend) / (2 * aq) else 0

/-- The square of the reachable peak speed of the triangular branch:
s = a * totalSteps + (v0^2 + vend^2) / 2, floored at v0^2 (the source
clamps s before taking sqrtf). -/
def triPeakSq (aq v0 vend : ℚ) (total : ℕ) : ℚ :=
  max (aq * (total : ℚ) + (v0 * v0 + vend * vend) / 2) (v0 * v0)

/-- The velocity-profile planner of the start-command branch: round the
two ramp distances to whole steps; if they fit in totalSteps the profile
is trapezoidal with the rest cruising at vtar, otherwise it is
triangular with a recomputed peak and the remainder after the
acceleration steps assigned to deceleration.

The source computes peak = sqrtf(s) and immediately squares it again
for accelStepsF; the exact square s is carried in peakSq, and the
stored peak speed uses the rational square root stand-in (exact on
perfect squares).  The recomputed decelStepsF of the source is dead:
it is overwritten by the remainder assignment. -/
def makePlan (aq v0 vend vtar : ℚ) (total : ℕ) : PlanResult :=
  let accelUL := ulRound (accelDistF aq v0 vtar)
  let decelUL := ulRound (decelDistF aq vend vtar)
  if accelUL + decelUL ≤ total then
    ⟨accelUL, total - accelUL - decelUL, decelUL, vtar, vtar * vtar⟩
  else
    let s := triPeakSq aq v0 vend total
    let accelUL2 := ulRound ((s - v0 * v0) / (2 * aq))
    ⟨accelUL2, 0, if accelUL2 < total then total - accelUL2 else 0, Rat.sqrt s, s⟩

/-- The start speed installed by a trapezoid-mode start: the minimum
start speed, or the target itself when the target lies below it. -/
def startCur (target : ℚ) : ℚ :=
  if 0 < target ∧ target < minStartSpeedSps then target else minStartSpeedSps

/-- The ramp acceleration installed by a trapezoid-mode start: solved so
the 0.2 s ramp time reaches the target, floored at 1; unchanged when no
ramp up is needed. -/
def startAcc (target acc0 : ℚ) : ℚ :=
  if startCur target < target then max ((target - startCur target) / targetRampTimeSec) 1
  else acc0

/-- Action code M: start the motor (value = step count, 0 or a
non-positive parse meaning unbounded motion).  Under trapezoid mode the
start speed, ramp acceleration and timer are reinitialised and, for a
bounded move with a positive target speed, the trapezoidal or
triangular profile is planned. -/
def startCommand (value : ℤ) (a0 : Axis) : Axis :=
  let a := { a0 with
    enaHigh := false,
    remainingSteps := if 0 < value then value.toNat else 0,
    motorEnabled := true }
  if a.useTrapezoid then
    let cur := startCur a.targetSpeedSps
    let acc := startAcc a.targetSpeedSps a.accelerationSps2
    let itv := spsToIntervalUs cur
    let a := { a with currentSpeedSps := cur, accelerationSps2 := acc,
                      stepInterval := itv, ocr := ocrSetup itv }
    if 0 < a.remainingSteps ∧ 0 < a.targetSpeedSps then
      let p := makePlan (max a.accelerationSps2 1) a.currentSpeedSps
                 minStartSpeedSps a.targetSpeedSps a.remainingSteps
      { a with planActive := true, planTotalSteps := a.remainingSteps,
               planStepsDone := 0,
               planAccelSteps := p.accelSteps, planCruiseSteps := p.cruiseSteps,
               planDecelSteps := p.decelSteps,
               planPeakSpeedSps := p.peakSpeedSps, planPeakSq := p.peakSq }
    else
      { a with planActive := false, planStepsDone := 0 }
  else
    -- constant-speed mode: retime the axis timer at the current interval
    { a with ocr := ocrSetup a.stepInterval, planActive := false, planStepsDone := 0 }

/-- Action code S: stop the motor. -/
def stopCommand (a : Axis) : Axis :=
  { a with motorEnabled := false, enaHigh := true, remainingSteps := 0,
           currentSpeedSps := 0, planActive := false, planStepsDone := 0 }

/-- Action code V: change speed (rpm).  Under trapezoid mode update the
target speed and the ramp acceleration; otherwise queue the new interval
as a pending update for the scheduler. -/
def speedCommand (value : ℤ) (a : Axis) : Axis :=
  if 0 < value then
    if a.useTrapezoid then
      let tgt := rpmToSps value
      let base := if 1 < a.currentSpeedSps then a.currentSpeedSps else minStartSpeedSps
      let acc := if base < tgt then max ((tgt - base) / targetRampTimeSec) 1
                 else a.accelerationSps2
      { a with targetSpeedSps := tgt, accelerationSps2 := acc }
    else
      let itv := rpmToIntervalUs value
      { a with stepInterval := itv, pendingIntervalUs := itv,
               pendingIntervalUpdate := true, targetSpeedSps := rpmToSps value }
  else a

/-- Action code A: toggle trapezoid mode (0 = off).  Switching off
collapses the speed to the target and queues the matching interval. -/
def trapToggleCommand (value : ℤ) (a : Axis) : Axis :=
  let a1 := { a with useTrapezoid := decide (value ≠ 0) }
  if a1.useTrapezoid then a1
  else
    let a2 := if 0 < a1.targetSpeedSps then
                let itv := spsToIntervalUs a1.targetSpeedSps
                { a1 with currentSpeedSps := a1.targetSpeedSps, stepInterval := itv,
                          pendingIntervalUs := itv, pendingIntervalUpdate := true }
              else a1
    { a2 with planActive := false, planStepsDone := 0 }

/-- The whole controller state: the three axes and the externally
measured rotation periods feeding the X query. -/
structure Sys where
  axes : Fin 3 → Axis
  rotationTimeMs : Fin 3 → ℕ

/-- calculateRPM: 60000 ms divided by the measured rotation period, 0
when unmeasured (integer division). -/
def calculateRPM (s : Sys) (i : Fin 3) : ℕ :=
  if 0 < s.rotationTimeMs i then 60000 / s.rotationTimeMs i else 0

/-- The six ASCII digits written by sprintf %06d for 0 <= n <= 999999. -/
def pad6 (n : ℕ) : List ℕ :=
  [48 + n / 100000 % 10, 48 + n / 10000 % 10, 48 + n / 1000 % 10,
   48 + n / 100 % 10, 48 + n / 10 % 10, 48 + n % 10]

/-- The 10-byte reply frame: STX, pump digit, 6 value bytes, XOR checksum
of bytes 1..7, ETX. -/
def replyFrame (pumpDigit : ℕ) (value : List ℕ) : List ℕ :=
  let body := pumpDigit :: value
  [2] ++ body ++ [body.foldl (· ^^^ ·) 0, 3]

/-- The dummy current reply value "+00000" of the C query. -/
def dummyCurrentField : List ℕ := [43, 48, 48, 48, 48, 48]

/-- processCommand: validate STX/ETX and the XOR checksum, resolve the
axis selector digit, parse the value field with atol, and dispatch on
the action code.  Returns the new state and the reply frame written to
the serial port, if any. -/
def processCommand (f : Frame) (s : Sys) : Sys × Option (List ℕ) :=
  if f 0 ≠ 2 ∨ f 10 ≠ 3 then (s, none)
  else if checksum8 f ≠ f 9 then (s, none)
  else
    let pumpNo : ℤ := (f 1 : ℤ) - 48
    if h : pumpNo < 1 ∨ 3 < pumpNo then (s, none)
    else
      let idx : Fin 3 := ⟨f 1 - 49, by omega⟩
      let value : ℤ := atol (valueBytes f)
      let a := s.axes idx
      if f 2 = 77 then       -- M: start
        ({ s with axes := Function.update s.axes idx (startCommand value a) }, none)
      else if f 2 = 83 then  -- S: stop
        ({ s with axes := Function.update s.axes idx (stopCommand a) }, none)
      else if f 2 = 70 then  -- F: forward
        ({ s with axes := Function.update s.axes idx { a with dirHigh := true } }, none)
      else if f 2 = 82 then  -- R: reverse
        ({ s with axes := Function.update s.axes idx { a with dirHigh := false } }, none)
      else if f 2 = 86 then  -- V: speed change
        ({ s with axes := Function.update s.axes idx (speedCommand value a) }, none)
      else if f 2 = 69 then  -- E: excitation on
        ({ s with axes := Function.update s.axes idx { a with enaHigh := false } }, none)
      else if f 2 = 68 then  -- D: excitation off
        ({ s with axes := Function.update s.axes idx { a with enaHigh := true } }, none)
      else if f 2 = 65 then  -- A: trapezoid on/off
        ({ s with axes := Function.update s.axes idx (trapToggleCommand value a) }, none)
      else if f 2 = 67 then  -- C: current query (dummy reply)
        (s, some (replyFrame (f 1) dummyCurrentField))
      else if f 2 = 88 then  -- X: rotation query
        (s, some (replyFrame (f 1) (pad6 (calculateRPM s idx))))
      else (s, none)

/-- One axis timer interrupt: run handleStep on axis i. -/
def stepSys (i : Fin 3) (s : Sys) : Sys :=
  { s with axes := Function.update s.axes i (handleStep (s.axes i)) }

/-- The axis state established by setup(): timers at 200 rpm, excitation
on, direction forward, motor stopped, trapezoid off. -/
def initialAxis : Axis :=
  { stepHigh := false, stepInterval := rpmToIntervalUs 200, motorEnabled := false,
    remainingSteps := 0, pendingIntervalUpdate := false, pendingIntervalUs := 0,
    planActive := false, planTotalSteps := 0, planStepsDone := 0,
    planAccelSteps := 0, planCruiseSteps := 0, planDecelSteps := 0,
    planPeakSpeedSps := 0, planPeakSq := 0, useTrapezoid := false,
    currentSpeedSps := 0, targetSpeedSps := rpmToSps 200,
    accelerationSps2 := 4000, ocr := ocrSetup (rpmToIntervalUs 200),
    stepPin := false, enaHigh := false, dirHigh := true }

/-- The controller state right after setup(). -/
def initialSys : Sys :=
  { axes := fun _ => initialAxis, rotationTimeMs := fun _ => 0 }

/-- States reachable from setup() by any interleaving of completed
command frames and axis timer interrupts. -/
inductive Reachable : Sys → Prop
  | init : Reachable initialSys
  | cmd (f : Frame) {s : Sys} : Reachable s → Reachable (processCommand f s).1
  | step (i : Fin 3) {s : Sys} : Reachable s → Reachable (stepSys i s)

/-- A frame respects the documented speed range: a V (speed) command
carries at most 150000 rpm (the largest rpm whose step rate still fits a
whole microsecond half-period). -/
def frameOk (f : Frame) : Prop := f 2 = 86 → atol (valueBytes f) ≤ 150000

/-- States reachable from setup() when every speed command stays in the
documented rpm range. -/
inductive ReachableBounded : Sys → Prop
  | init : ReachableBounded initialSys
  | cmd (f : Frame) {s : Sys} : frameOk f → ReachableBounded s →
      ReachableBounded (processCommand f s).1
  | step (i : Fin 3) {s : Sys} : ReachableBounded s → ReachableBounded (stepSys i s)

/-- The frame f with bit b of byte j flipped. -/
def flipBit (f : Frame) (j : Fin 11) (b : ℕ) : Frame :=
  Function.update f j (f j ^^^ 2 ^ b)

/-- A target speed of the shape the firmware can install: rpmToSps of
some rpm between 1 and 150000 (the setup value 200 rpm included). -/
def TargetForm (t : ℚ) : Prop :=
  ∃ v : ℕ, 1 ≤ v ∧ v ≤ 150000 ∧ t = 20 * (v : ℚ) / 3

/-- The interval invariant: every axis timer half-period is positive and
every target speed has the installable shape. -/
def IntervalInv (s : Sys) : Prop :=
  ∀ i : Fin 3, 0 < (s.axes i).stepInterval ∧ TargetForm ((s.axes i).targetSpeedSps)

/-! ## General lemmas about the embedding -/

theorem castU16_of_bounds (q : ℚ) (n : ℕ) (h1 : (n : ℚ) ≤ q) (h2 : q < n + 1) :
    castU16 q = n % 65536 := by
  have h0 : 0 ≤ q := le_trans (by positivity) h1
  rw [castU16, Nat.floor_eq_iff h0 |>.2 ⟨h1, by exact_mod_cast h2⟩]

theorem castU32_of_bounds (q : ℚ) (n : ℕ) (h1 : (n : ℚ) ≤ q) (h2 : q < n + 1) :
    castU32 q = n % 4294967296 := by
  have h0 : 0 ≤ q := le_trans (by positivity) h1
  rw [castU32, Nat.floor_eq_iff h0 |>.2 ⟨h1, by exact_mod_cast h2⟩]

theorem castU16_natDiv (a b : ℕ) :
    castU16 ((a : ℚ) / (b : ℚ)) = a / b % 65536 := by
  rw [castU16, Nat.floor_div_nat, Nat.floor_natCast]

theorem castU32_natDiv (a b : ℕ) :
    castU32 ((a : ℚ) / (b : ℚ)) = a / b % 4294967296 := by
  rw [castU32, Nat.floor_div_nat, Nat.floor_natCast]

theorem xor_left_comm (a b c : ℕ) : a ^^^ (b ^^^ c) = b ^^^ (a ^^^ c) := by
  rw [← Nat.xor_assoc, Nat.xor_comm a b, Nat.xor_assoc]

theorem xor_ne_self {x m : ℕ} (hm : m ≠ 0) : x ^^^ m ≠ x := by
  intro h
  apply hm
  have h2 : x ^^^ (x ^^^ m) = x ^^^ x := congrArg (x ^^^ ·) h
  rwa [← Nat.xor_assoc, Nat.xor_self, Nat.zero_xor] at h2

theorem checksum8_flipBit (f : Frame) (j : Fin 11) (b : ℕ)
    (h1 : 1 ≤ (j : ℕ)) (h2 : (j : ℕ) ≤ 8) :
    checksum8 (flipBit f j b) = checksum8 f ^^^ 2 ^ b := by
  fin_cases j <;>
    simp_all +decide [checksum8, flipBit, Function.update] <;>
    simp [Nat.xor_assoc, Nat.xor_comm, xor_left_comm]

theorem processCommand_bad_markers {f : Frame} (s : Sys)
    (h : f 0 ≠ 2 ∨ f 10 ≠ 3) : processCommand f s = (s, none) := by
  simp [processCommand, h]

theorem processCommand_bad_checksum {f : Frame} (s : Sys)
    (h : checksum8 f ≠ f 9) : processCommand f s = (s, none) := by
  by_cases hm : f 0 ≠ 2 ∨ f 10 ≠ 3
  · simp [processCommand, hm]
  · simp [processCommand, hm, h]

theorem processCommand_bad_axis {f : Frame} (s : Sys)
    (h : (f 1 : ℤ) - 48 < 1 ∨ 3 < (f 1 : ℤ) - 48) :
    processCommand f s = (s, none) := by
  by_cases hm : f 0 ≠ 2 ∨ f 10 ≠ 3
  · simp [processCommand, hm]
  · by_cases hc : checksum8 f ≠ f 9
    · simp [processCommand, hm, hc]
    · simp [processCommand, hm, hc, h]

/-- C4: a frame failing the STX/ETX markers, a frame whose XOR checksum
of bytes 1..8 does not match byte 9 (in particular any frame obtained
from a checksum-consistent frame by flipping one bit in bytes 1..8), and
a frame with an out-of-range axis selector are all dropped: processing
returns the state unchanged and produces no reply. -/
theorem C4_invalid_frames_dropped (s : Sys) (f : Frame) :
    ((f 0 ≠ 2 ∨ f 10 ≠ 3) → processCommand f s = (s, none)) ∧
    (checksum8 f ≠ f 9 → processCommand f s = (s, none)) ∧
    (((f 1 : ℤ) - 48 < 1 ∨ 3 < (f 1 : ℤ) - 48) → processCommand f s = (s, none)) ∧
    (∀ (j : Fin 11) (b : ℕ), 1 ≤ (j : ℕ) → (j : ℕ) ≤ 8 → checksum8 f = f 9 →
      processCommand (flipBit f j b) s = (s, none)) := by
  refine ⟨fun h => processCommand_bad_markers s h,
          fun h => processCommand_bad_checksum s h,
          fun h => processCommand_bad_axis s h,
          fun j b h1 h2 hcs => ?_⟩
  apply processCommand_bad_checksum
  have h9 : flipBit f j b 9 = f 9 := by
    have hj9 : j ≠ 9 := by
      intro hj
      subst hj
      exact absurd h2 (by decide)
    simp [flipBit, Function.update_noteq (Ne.symm hj9)]
  rw [checksum8_flipBit f j b h1 h2, h9, hcs]
  exact xor_ne_self (by positivity)

/-- C4 witness: a frame whose value field has one flipped bit is dropped
without touching the state. -/
theorem C4_witness :
    processCommand
      (flipBit (![2, 49, 77, 48, 48, 48, 49, 48, 48, 125, 3]) 3 0) initialSys
      = (initialSys, none) :=
  (C4_invalid_frames_dropped initialSys
      (![2, 49, 77, 48, 48, 48, 49, 48, 48, 125, 3])).2.2.2
    3 0 (by decide) (by decide) (by decide)

theorem startCommand_motorEnabled (v : ℤ) (a : Axis) :
    (startCommand v a).motorEnabled = true := by
  simp only [startCommand]
  split_ifs <;> rfl

theorem startCommand_remainingSteps (v : ℤ) (a : Axis) :
    (startCommand v a).remainingSteps = if 0 < v then v.toNat else 0 := by
  simp only [startCommand]
  split_ifs <;> rfl

/-- The handler's dispatch of a valid start frame for axis 1. -/
theorem processCommand_start {f : Frame} (s : Sys)
    (h0 : f 0 = 2) (h10 : f 10 = 3) (hcs : checksum8 f = f 9)
    (h1 : f 1 = 49) (hM : f 2 = 77) :
    (processCommand f s).1.axes 0
      = startCommand (atol (valueBytes f)) (s.axes 0) := by
  simp [processCommand, h0, h10, hcs, h1, hM]

/-- C10: the handler never validates that the value field consists of
digits.  Any frame passing the marker, checksum and axis checks with
action M is dispatched with the atol interpretation of bytes 3..8; in
particular a value field starting with a byte that is no digit, sign or
whitespace parses as 0, so the start command is executed as unbounded
motion rather than rejected. -/
theorem C10_value_field_atol_semantics (s : Sys) (f : Frame)
    (h0 : f 0 = 2) (h10 : f 10 = 3) (hcs : checksum8 f = f 9)
    (h1 : f 1 = 49) (hM : f 2 = 77) :
    ((processCommand f s).1.axes 0
        = startCommand (atol (valueBytes f)) (s.axes 0)) ∧
    (((processCommand f s).1.axes 0).motorEnabled = true) ∧
    (((processCommand f s).1.axes 0).remainingSteps
        = if 0 < atol (valueBytes f) then (atol (valueBytes f)).toNat else 0) ∧
    (isDigitByte (f 3) = false → f 3 ≠ 43 → f 3 ≠ 45 → isSpaceByte (f 3) = false →
       atol (valueBytes f) = 0 ∧ ((processCommand f s).1.axes 0).remainingSteps = 0) := by
  have hd := processCommand_start s h0 h10 hcs h1 hM
  refine ⟨hd, by rw [hd]; exact startCommand_motorEnabled _ _,
          by rw [hd]; exact startCommand_remainingSteps _ _, ?_⟩
  intro hdig hplus hminus hspace
  have hatol : atol (valueBytes f) = 0 := by
    simp [atol, valueBytes, List.dropWhile_cons, hspace, hplus, hminus, digitsVal, hdig]
  refine ⟨hatol, ?_⟩
  rw [hd, startCommand_remainingSteps, hatol]
  simp

/-- C10 witness: a checksum-valid start frame with value field "ABCDEF"
starts unbounded motion with value 0 instead of being rejected. -/
theorem C10_witness :
    atol (valueBytes (![2, 49, 77, 65, 66, 67, 68, 69, 70, 123, 3])) = 0 ∧
    ((processCommand (![2, 49, 77, 65, 66, 67, 68, 69, 70, 123, 3]) initialSys).1.axes 0).remainingSteps = 0 :=
  (C10_value_field_atol_semantics initialSys
      (![2, 49, 77, 65, 66, 67, 68, 69, 70, 123, 3])
      (by decide) (by decide) (by decide) (by decide) (by decide)).2.2.2
    (by decide) (by decide) (by decide) (by decide)

/-- C2 counterexample: on a valid current-telemetry query the handler
replies with the constant dummy field "+00000" (decoding to 0).  No
ring buffer is ever consulted: had fifty samples of 7 mA been fed, their
arithmetic mean would be 7, yet the reply still decodes to 0. -/
theorem C2_counterexample :
    (processCommand (![2, 49, 67, 48, 48, 48, 48, 48, 48, 114, 3]) initialSys).2
      = some [2, 49, 43, 48, 48, 48, 48, 48, 42, 3] ∧
    atol [43, 48, 48, 48, 48, 48] = 0 ∧
    (List.replicate 50 (7 : ℚ)).sum / 50 = 7 ∧ (0 : ℚ) ≠ 7 := by
  refine ⟨by decide, by decide, ?_, by norm_num⟩
  rw [List.sum_replicate]
  norm_num

/-- C2 (amended): the C query returns a reply frame whose value field is
the fixed dummy string "+00000", independent of the controller state,
and leaves the state untouched; the firmware has no current ring buffer
or rolling average. -/
theorem C2_current_query_dummy (s : Sys) (f : Frame)
    (h0 : f 0 = 2) (h10 : f 10 = 3) (hcs : checksum8 f = f 9)
    (h1 : 49 ≤ f 1) (h1b : f 1 ≤ 51) (hC : f 2 = 67) :
    processCommand f s = (s, some (replyFrame (f 1) dummyCurrentField)) ∧
    (replyFrame (f 1) dummyCurrentField).take 8
      = [2, f 1, 43, 48, 48, 48, 48, 48] := by
  have hax : ¬ ((f 1 : ℤ) - 48 < 1 ∨ 3 < (f 1 : ℤ) - 48) := by omega
  constructor
  · simp [processCommand, h0, h10, hcs, hax, hC]
  · simp [replyFrame, dummyCurrentField]

/-- C2 witness: the dummy reply on axis 2 with an all-zero value query. -/
theorem C2_witness :
    processCommand (![2, 50, 67, 48, 48, 48, 48, 48, 48, 113, 3]) initialSys
      = (initialSys,
         some (replyFrame 50 dummyCurrentField)) :=
  (C2_current_query_dummy initialSys (![2, 50, 67, 48, 48, 48, 48, 48, 48, 113, 3])
      (by decide) (by decide) (by decide) (by decide) (by decide) (by decide)).1

/-- C8 counterexample: a stopped axis (as left behind by step-count
exhaustion, with the current speed still at the 500 steps/s minimum)
does not keep all fields outside the plan unchanged under a stop
command: its currentSpeedSps is zeroed. -/
theorem C8_counterexample :
    ({ initialAxis with currentSpeedSps := 500 } : Axis).motorEnabled = false ∧
    ({ initialAxis with currentSpeedSps := 500 } : Axis).currentSpeedSps = 500 ∧
    (stopCommand { initialAxis with currentSpeedSps := 500 }).currentSpeedSps = 0 ∧
    (500 : ℚ) ≠ 0 := by
  exact ⟨rfl, rfl, rfl, by norm_num⟩

/-- C8 (amended): a stop command on an already-stopped axis leaves every
field unchanged except that it clears the plan (planActive and
planStepsDone), zeroes currentSpeedSps and remainingSteps, and drives
the excitation line off; and stop is idempotent as a state transformer
on every axis. -/
theorem C8_stop_idempotent (a : Axis) (h : a.motorEnabled = false) :
    ((stopCommand a).stepHigh = a.stepHigh ∧
     (stopCommand a).stepInterval = a.stepInterval ∧
     (stopCommand a).pendingIntervalUpdate = a.pendingIntervalUpdate ∧
     (stopCommand a).pendingIntervalUs = a.pendingIntervalUs ∧
     (stopCommand a).planTotalSteps = a.planTotalSteps ∧
     (stopCommand a).planAccelSteps = a.planAccelSteps ∧
     (stopCommand a).planCruiseSteps = a.planCruiseSteps ∧
     (stopCommand a).planDecelSteps = a.planDecelSteps ∧
     (stopCommand a).planPeakSpeedSps = a.planPeakSpeedSps ∧
     (stopCommand a).planPeakSq = a.planPeakSq ∧
     (stopCommand a).useTrapezoid = a.useTrapezoid ∧
     (stopCommand a).targetSpeedSps = a.targetSpeedSps ∧
     (stopCommand a).accelerationSps2 = a.accelerationSps2 ∧
     (stopCommand a).ocr = a.ocr ∧
     (stopCommand a).stepPin = a.stepPin ∧
     (stopCommand a).dirHigh = a.dirHigh) ∧
    ((stopCommand a).motorEnabled = a.motorEnabled ∧
     (stopCommand a).remainingSteps = 0 ∧
     (stopCommand a).currentSpeedSps = 0 ∧
     (stopCommand a).planActive = false ∧
     (stopCommand a).planStepsDone = 0 ∧
     (stopCommand a).enaHigh = true) ∧
    (∀ b : Axis, stopCommand (stopCommand b) = stopCommand b) := by
  refine ⟨⟨rfl, rfl, rfl, rfl, rfl, rfl, rfl, rfl, rfl, rfl, rfl, rfl, rfl, rfl,
           rfl, rfl⟩, ⟨h ▸ rfl, rfl, rfl, rfl, rfl, rfl⟩, fun b => rfl⟩

/-- C8 witness: stop on the freshly initialised (stopped) axis. -/
theorem C8_witness :
    (stopCommand initialAxis).targetSpeedSps = initialAxis.targetSpeedSps ∧
    stopCommand (stopCommand initialAxis) = stopCommand initialAxis :=
  ⟨(C8_stop_idempotent initialAxis rfl).1.2.2.2.2.2.2.2.2.2.2.2.1,
   (C8_stop_idempotent initialAxis rfl).2.2 initialAxis⟩

theorem ulRound_zero : ulRound 0 = 0 := by
  have h : ((0 : ℚ) + 1/2) < 1 := by norm_num
  rw [ulRound, castU32, Nat.floor_eq_zero.2 h]

theorem ulRound_cast_le {q : ℚ} (hq : 0 ≤ q) : (ulRound q : ℚ) ≤ q + 1/2 := by
  calc ((ulRound q : ℕ) : ℚ) ≤ (⌊q + 1/2⌋₊ : ℚ) := by
        exact_mod_cast Nat.mod_le _ _
    _ ≤ q + 1/2 := Nat.floor_le (by positivity)

theorem ulRound_half (n : ℕ) (hn : n ≤ 999999) :
    ulRound ((n : ℚ) / 2) = (n + 1) / 2 := by
  have h : (n : ℚ) / 2 + 1/2 = ((n + 1 : ℕ) : ℚ) / ((2 : ℕ) : ℚ) := by
    push_cast
    ring
  rw [ulRound, h, castU32_natDiv]
  exact Nat.mod_eq_of_lt (by omega)

/-- Both planner branches, when the start speed equals the end speed,
produce phase lengths summing exactly to the total step count. -/
theorem makePlan_sum (aq v0 vtar : ℚ) (total : ℕ)
    (haq : 0 < aq) (h1 : 1 ≤ total) (h2 : total ≤ 999999) :
    (makePlan aq v0 v0 vtar total).accelSteps
      + (makePlan aq v0 v0 vtar total).cruiseSteps
      + (makePlan aq v0 v0 vtar total).decelSteps = total := by
  have hs : triPeakSq aq v0 v0 total = aq * (total : ℚ) + v0 * v0 := by
    rw [triPeakSq]
    have he : (v0 * v0 + v0 * v0) / 2 = v0 * v0 := by ring
    rw [he]
    exact max_eq_left (by nlinarith [Nat.cast_nonneg (α := ℚ) total])
  have hd : (triPeakSq aq v0 v0 total - v0 * v0) / (2 * aq) = (total : ℚ) / 2 := by
    rw [hs]
    field_simp
    ring
  simp only [makePlan]
  by_cases hb : ulRound (accelDistF aq v0 vtar) + ulRound (decelDistF aq v0 vtar) ≤ total
  · rw [if_pos hb]
    dsimp only
    omega
  · rw [if_neg hb]
    dsimp only
    rw [hd, ulRound_half total h2]
    split <;> omega

/-- The trapezoid-mode start installs the planner output for the
recomputed ramp acceleration, start speed and end speed. -/
theorem startCommand_plan (a : Axis) (value : ℤ)
    (htrap : a.useTrapezoid = true) (hv : 0 < value) (ht : 0 < a.targetSpeedSps) :
    (startCommand value a).planActive = true ∧
    (startCommand value a).planTotalSteps = value.toNat ∧
    (startCommand value a).planAccelSteps
      = (makePlan (max (startAcc a.targetSpeedSps a.accelerationSps2) 1)
          (startCur a.targetSpeedSps) minStartSpeedSps a.targetSpeedSps
          value.toNat).accelSteps ∧
    (startCommand value a).planCruiseSteps
      = (makePlan (max (startAcc a.targetSpeedSps a.accelerationSps2) 1)
          (startCur a.targetSpeedSps) minStartSpeedSps a.targetSpeedSps
          value.toNat).cruiseSteps ∧
    (startCommand value a).planDecelSteps
      = (makePlan (max (startAcc a.targetSpeedSps a.accelerationSps2) 1)
          (startCur a.targetSpeedSps) minStartSpeedSps a.targetSpeedSps
          value.toNat).decelSteps ∧
    (startCommand value a).planPeakSq
      = (makePlan (max (startAcc a.targetSpeedSps a.accelerationSps2) 1)
          (startCur a.targetSpeedSps) minStartSpeedSps a.targetSpeedSps
          value.toNat).peakSq ∧
    (startCommand value a).currentSpeedSps = startCur a.targetSpeedSps ∧
    (startCommand value a).targetSpeedSps = a.targetSpeedSps := by
  have hv' : (0 : ℕ) < value.toNat := by omega
  simp [startCommand, htrap, hv, hv', ht]

/-- C1: for every bounded trapezoid-mode start (positive step count and
positive target speed) the plan's three phase lengths sum exactly to the
plan's total step count, in the trapezoidal and the triangular branch
alike. -/
theorem C1_plan_phases_sum (a : Axis) (value : ℤ)
    (htrap : a.useTrapezoid = true) (hv : 0 < value) (hvb : value ≤ 999999)
    (ht : 0 < a.targetSpeedSps) :
    (startCommand value a).planActive = true ∧
    (startCommand value a).planTotalSteps = value.toNat ∧
    (startCommand value a).planAccelSteps + (startCommand value a).planCruiseSteps
      + (startCommand value a).planDecelSteps
      = (startCommand value a).planTotalSteps := by
  obtain ⟨hpa, hpt, hA, hC, hD, hQ, hS, hT⟩ := startCommand_plan a value htrap hv ht
  refine ⟨hpa, hpt, ?_⟩
  rw [hA, hC, hD, hpt]
  by_cases tlt : a.targetSpeedSps < minStartSpeedSps
  · -- the start speed equals the target: both ramp distances vanish and
    -- the trapezoidal branch assigns the whole move to the cruise phase
    have hcur : startCur a.targetSpeedSps = a.targetSpeedSps := by
      rw [startCur, if_pos ⟨ht, tlt⟩]
    have hacc : accelDistF (max (startAcc a.targetSpeedSps a.accelerationSps2) 1)
        (startCur a.targetSpeedSps) a.targetSpeedSps = 0 := by
      rw [accelDistF, if_neg]
      rw [hcur]
      exact lt_irrefl _
    have hdec : decelDistF (max (startAcc a.targetSpeedSps a.accelerationSps2) 1)
        minStartSpeedSps a.targetSpeedSps = 0 := by
      rw [decelDistF, if_neg]
      exact not_lt.2 tlt.le
    simp only [makePlan, hacc, hdec, ulRound_zero]
    rw [if_pos (Nat.zero_le _)]
    dsimp only
    omega
  · -- the start speed is the 500 steps/s minimum, which is also the end
    -- speed, so both planner branches sum exactly
    have hcur : startCur a.targetSpeedSps = minStartSpeedSps := by
      rw [startCur, if_neg]
      exact fun hcon => tlt hcon.2
    rw [hcur]
    exact makePlan_sum _ _ _ _ (lt_of_lt_of_le zero_lt_one (le_max_right _ 1))
      (by omega) (by omega)

/-- C1 witness: a bounded start of 100 steps at 2000 steps/s target with
trapezoid mode on. -/
theorem C1_witness :
    (startCommand 100 { initialAxis with useTrapezoid := true, targetSpeedSps := 2000 }).planActive = true ∧
    (startCommand 100 { initialAxis with useTrapezoid := true, targetSpeedSps := 2000 }).planTotalSteps = (100 : ℤ).toNat ∧
    (startCommand 100 { initialAxis with useTrapezoid := true, targetSpeedSps := 2000 }).planAccelSteps
      + (startCommand 100 { initialAxis with useTrapezoid := true, targetSpeedSps := 2000 }).planCruiseSteps
      + (startCommand 100 { initialAxis with useTrapezoid := true, targetSpeedSps := 2000 }).planDecelSteps
      = (startCommand 100 { initialAxis with useTrapezoid := true, targetSpeedSps := 2000 }).planTotalSteps :=
  C1_plan_phases_sum { initialAxis with useTrapezoid := true, targetSpeedSps := 2000 }
    100 rfl (by norm_num) (by norm_num) (by norm_num)

/-- C5: whenever the planner takes the triangular branch (the rounded
ramp distances exceed the total step count) on monotone speeds
(v0 <= vtar, vend <= vtar, the shape of every actual invocation), the
plan cruises zero steps, assigns the whole remainder after the
acceleration phase to the deceleration phase, and the recomputed peak
speed sqrt(peakSq) lies between v0 and vtar. -/
theorem C5_triangular_peak (aq v0 vend vtar : ℚ) (total : ℕ)
    (haq : 0 < aq) (hv0 : 0 ≤ v0) (hve : 0 ≤ vend)
    (h1 : v0 ≤ vtar) (h2 : vend ≤ vtar)
    (htri : total < ulRound (accelDistF aq v0 vtar) + ulRound (decelDistF aq vend vtar)) :
    (makePlan aq v0 vend vtar total).cruiseSteps = 0 ∧
    (makePlan aq v0 vend vtar total).decelSteps
      = total - (makePlan aq v0 vend vtar total).accelSteps ∧
    ((v0 : ℝ) ≤ Real.sqrt (((makePlan aq v0 vend vtar total).peakSq : ℚ) : ℝ)) ∧
    (Real.sqrt (((makePlan aq v0 vend vtar total).peakSq : ℚ) : ℝ) ≤ (vtar : ℝ)) := by
  have hnle : ¬ (ulRound (accelDistF aq v0 vtar) + ulRound (decelDistF aq vend vtar) ≤ total) :=
    not_le.2 htri
  have hA0 : 0 ≤ accelDistF aq v0 vtar := by
    rw [accelDistF]
    split
    · exact div_nonneg (by nlinarith) (by positivity)
    · exact le_refl 0
  have hD0 : 0 ≤ decelDistF aq vend vtar := by
    rw [decelDistF]
    split
    · exact div_nonneg (by nlinarith) (by positivity)
    · exact le_refl 0
  have htot : (total : ℚ) ≤ accelDistF aq v0 vtar + decelDistF aq vend vtar := by
    have hc : ((total : ℕ) : ℚ) + 1
        ≤ (ulRound (accelDistF aq v0 vtar) : ℚ) + (ulRound (decelDistF aq vend vtar) : ℚ) := by
      exact_mod_cast htri
    have ha := ulRound_cast_le hA0
    have hd := ulRound_cast_le hD0
    linarith
  have hsum : aq * (accelDistF aq v0 vtar + decelDistF aq vend vtar)
      = (vtar * vtar - v0 * v0) / 2 + (vtar * vtar - vend * vend) / 2 := by
    rw [accelDistF, decelDistF]
    split_ifs with hc1 hc2 hc2
    · field_simp
      ring
    · have hveq : vend = vtar := le_antisymm h2 (not_lt.1 hc2)
      rw [hveq]
      field_simp
      ring
    · have hveq : v0 = vtar := le_antisymm h1 (not_lt.1 hc1)
      rw [hveq]
      field_simp
      ring
    · have hveq : v0 = vtar := le_antisymm h1 (not_lt.1 hc1)
      have hveq2 : vend = vtar := le_antisymm h2 (not_lt.1 hc2)
      rw [hveq, hveq2]
      ring
  have hpeak : triPeakSq aq v0 vend total ≤ vtar * vtar := by
    rw [triPeakSq]
    apply max_le
    · have hm : aq * (total : ℚ) ≤ aq * (accelDistF aq v0 vtar + decelDistF aq vend vtar) :=
        mul_le_mul_of_nonneg_left htot haq.le
      rw [hsum] at hm
      nlinarith
    · nlinarith
  have hpeak0 : v0 * v0 ≤ triPeakSq aq v0 vend total := le_max_right _ _
  simp only [makePlan]
  rw [if_neg hnle]
  dsimp only
  refine ⟨rfl, by split <;> omega, ?_, ?_⟩
  · have hy : (0 : ℝ) ≤ ((triPeakSq aq v0 vend total : ℚ) : ℝ) := by
      have : (0 : ℚ) ≤ triPeakSq aq v0 vend total := le_trans (by positivity) hpeak0
      exact_mod_cast this
    rw [Real.le_sqrt (by exact_mod_cast hv0) hy]
    have hc : ((v0 * v0 : ℚ) : ℝ) ≤ ((triPeakSq aq v0 vend total : ℚ) : ℝ) := by
      exact_mod_cast hpeak0
    push_cast at hc ⊢
    nlinarith [hc]
  · have hc : ((triPeakSq aq v0 vend total : ℚ) : ℝ) ≤ ((vtar * vtar : ℚ) : ℝ) := by
      exact_mod_cast hpeak
    calc Real.sqrt ((triPeakSq aq v0 vend total : ℚ) : ℝ)
        ≤ Real.sqrt ((vtar * vtar : ℚ) : ℝ) := Real.sqrt_le_sqrt hc
      _ = (vtar : ℝ) := by
          push_cast
          exact Real.sqrt_mul_self (by exact_mod_cast le_trans hv0 h1)

/-- C5 witness: v0 = vend = 500, vtar = 2000, accel = 7500, 100 steps:
both rounded ramp distances are 250, exceeding 100, so the branch is
triangular. -/
theorem C5_witness :
    (makePlan 7500 500 500 2000 100).cruiseSteps = 0 ∧
    (makePlan 7500 500 500 2000 100).decelSteps
      = 100 - (makePlan 7500 500 500 2000 100).accelSteps ∧
    ((500 : ℚ) : ℝ) ≤ Real.sqrt (((makePlan 7500 500 500 2000 100).peakSq : ℚ) : ℝ) ∧
    Real.sqrt (((makePlan 7500 500 500 2000 100).peakSq : ℚ) : ℝ) ≤ ((2000 : ℚ) : ℝ) := by
  have hA : ulRound (accelDistF 7500 500 2000) = 250 := by
    have he : accelDistF 7500 500 2000 = 250 := by
      rw [accelDistF, if_pos (by norm_num)]
      norm_num
    rw [he, ulRound]
    rw [castU32_of_bounds ((250 : ℚ) + 1/2) 250 (by norm_num) (by norm_num)]
  have hD : ulRound (decelDistF 7500 500 2000) = 250 := by
    have he : decelDistF 7500 500 2000 = 250 := by
      rw [decelDistF, if_pos (by norm_num)]
      norm_num
    rw [he, ulRound]
    rw [castU32_of_bounds ((250 : ℚ) + 1/2) 250 (by norm_num) (by norm_num)]
  exact C5_triangular_peak 7500 500 500 2000 100 (by norm_num) (by norm_num)
    (by norm_num) (by norm_num) (by norm_num) (by rw [hA, hD]; norm_num)

/-- The trapezoid section never touches the step counters, the enable
flag, the plan activity, the step level or the pending-update pair. -/
theorem trapezoidSection_counts (a : Axis) :
    (trapezoidSection a).remainingSteps = a.remainingSteps ∧
    (trapezoidSection a).planStepsDone = a.planStepsDone ∧
    (trapezoidSection a).planTotalSteps = a.planTotalSteps ∧
    (trapezoidSection a).motorEnabled = a.motorEnabled ∧
    (trapezoidSection a).planActive = a.planActive ∧
    (trapezoidSection a).stepHigh = a.stepHigh ∧
    (trapezoidSection a).pendingIntervalUpdate = a.pendingIntervalUpdate ∧
    (trapezoidSection a).pendingIntervalUs = a.pendingIntervalUs ∧
    (trapezoidSection a).enaHigh = a.enaHigh := by
  simp only [trapezoidSection]
  split_ifs <;> simp

/-- A disabled axis is left untouched by the scheduler. -/
theorem handleStep_disabled {a : Axis} (h : a.motorEnabled = false) :
    handleStep a = a := by
  simp [handleStep, h]

/-- A falling half-period (step level high before the call) only lowers
the step level: no step is consumed, no disable happens, and the pending
update stays queued. -/
theorem handleStep_falling {a : Axis} (hen : a.motorEnabled = true)
    (hsh : a.stepHigh = true) :
    (handleStep a).remainingSteps = a.remainingSteps ∧
    (handleStep a).planStepsDone = a.planStepsDone ∧
    (handleStep a).planTotalSteps = a.planTotalSteps ∧
    (handleStep a).motorEnabled = true ∧
    (handleStep a).planActive = a.planActive ∧
    (handleStep a).stepHigh = false ∧
    (handleStep a).pendingIntervalUpdate = a.pendingIntervalUpdate ∧
    (handleStep a).pendingIntervalUs = a.pendingIntervalUs := by
  have h := trapezoidSection_counts (fallingWork { a with stepHigh := !a.stepHigh })
  simp only [handleStep, hen, if_true, hsh, Bool.not_true, Bool.false_eq_true,
    if_false, fallingWork] at h ⊢
  simp_all

/-- A rising half-period on an axis with more than one remaining step:
one step is consumed, one plan step is recorded, the axis stays
enabled. -/
theorem handleStep_rising_mid {a : Axis} (hen : a.motorEnabled = true)
    (hsh : a.stepHigh = false) (hr : 2 ≤ a.remainingSteps) (hpa : a.planActive = true) :
    (handleStep a).remainingSteps = a.remainingSteps - 1 ∧
    (handleStep a).planStepsDone = a.planStepsDone + 1 ∧
    (handleStep a).planTotalSteps = a.planTotalSteps ∧
    (handleStep a).motorEnabled = true ∧
    (handleStep a).planActive = true ∧
    (handleStep a).stepHigh = true := by
  have h := trapezoidSection_counts (risingWork { a with stepHigh := !a.stepHigh })
  have hr0 : 0 < a.remainingSteps := by omega
  have hr1 : ¬ (a.remainingSteps - 1 = 0) := by omega
  simp only [handleStep, hen, if_true, hsh, Bool.not_false, if_true] at h ⊢
  simp only [risingWork, hr0, if_true, hpa] at h ⊢
  simp_all [risingWork, hr0, hpa, hr1]
  split_ifs at h ⊢ <;> simp_all

/-- The rising half-period that consumes the final step: the axis is
disabled, the excitation line driven off and the plan deactivated, with
planStepsDone having reached one more than before. -/
theorem handleStep_rising_last {a : Axis} (hen : a.motorEnabled = true)
    (hsh : a.stepHigh = false) (hr : a.remainingSteps = 1) (hpa : a.planActive = true) :
    (handleStep a).remainingSteps = 0 ∧
    (handleStep a).planStepsDone = a.planStepsDone + 1 ∧
    (handleStep a).planTotalSteps = a.planTotalSteps ∧
    (handleStep a).motorEnabled = false ∧
    (handleStep a).planActive = false ∧
    (handleStep a).stepHigh = true ∧
    (handleStep a).enaHigh = true := by
  have h := trapezoidSection_counts (risingWork { a with stepHigh := !a.stepHigh })
  have hr0 : 0 < a.remainingSteps := by omega
  have hr1 : a.remainingSteps - 1 = 0 := by omega
  simp only [handleStep, hen, if_true, hsh, Bool.not_false, if_true] at h ⊢
  simp only [risingWork, hr0, if_true, hpa] at h ⊢
  simp_all [risingWork, hr0, hpa, hr1]
  split_ifs at h ⊢ <;> simp_all

/-- C3: running the scheduler from a bounded start of N steps (plan
installed, step level low), each full step decrements remainingSteps
exactly once, on the rising half-period and not on the falling one; at
the rising edge where planStepsDone reaches N the axis observes
remainingSteps = 0, is disabled and has its plan cleared, and the
scheduler is inert from then on. -/
theorem C3_bounded_run_counts (a0 : Axis) (N : ℕ)
    (hen : a0.motorEnabled = true) (hsh : a0.stepHigh = false)
    (hpa : a0.planActive = true) (hr : a0.remainingSteps = N)
    (htot : a0.planTotalSteps = N) (hd : a0.planStepsDone = 0) (hN : 0 < N) :
    (∀ k, k < N →
       ((handleStep^[2*k] a0).remainingSteps = N - k ∧
        (handleStep^[2*k] a0).planStepsDone = k ∧
        (handleStep^[2*k] a0).motorEnabled = true ∧
        (handleStep^[2*k] a0).planActive = true) ∧
       ((handleStep^[2*k+1] a0).remainingSteps = N - (k+1) ∧
        (handleStep^[2*k+1] a0).planStepsDone = k + 1 ∧
        (handleStep^[2*k+2] a0).remainingSteps = N - (k+1) ∧
        (handleStep^[2*k+2] a0).planStepsDone = k + 1)) ∧
    ((handleStep^[2*N-1] a0).remainingSteps = 0 ∧
     (handleStep^[2*N-1] a0).planStepsDone = N ∧
     (handleStep^[2*N-1] a0).planTotalSteps = N ∧
     (handleStep^[2*N-1] a0).motorEnabled = false ∧
     (handleStep^[2*N-1] a0).planActive = false ∧
     handleStep^[2*N] a0 = handleStep^[2*N-1] a0) := by
  have key : ∀ k, k < N →
      (handleStep^[2*k] a0).remainingSteps = N - k ∧
      (handleStep^[2*k] a0).planStepsDone = k ∧
      (handleStep^[2*k] a0).planTotalSteps = N ∧
      (handleStep^[2*k] a0).motorEnabled = true ∧
      (handleStep^[2*k] a0).planActive = true ∧
      (handleStep^[2*k] a0).stepHigh = false := by
    intro k
    induction k with
    | zero =>
        intro _
        simpa using ⟨hr, hd, htot, hen, hpa, hsh⟩
    | succ k ih =>
        intro hk1
        obtain ⟨i1, i2, i3, i4, i5, i6⟩ := ih (by omega)
        have hmid := handleStep_rising_mid i4 i6 (by omega) i5
        have e1 : 2*(k+1) = (2*k+1)+1 := by ring
        have e0 : 2*k+1 = (2*k)+1 := rfl
        rw [e1, Function.iterate_succ_apply', e0, Function.iterate_succ_apply']
        obtain ⟨m1, m2, m3, m4, m5, m6⟩ := hmid
        have hfall := handleStep_falling m4 m6
        obtain ⟨f1, f2, f3, f4, f5, f6, _, _⟩ := hfall
        refine ⟨by rw [f1, m1]; omega, by rw [f2, m2, i2], by rw [f3, m3, i3],
                f4, by rw [f5, m5], f6⟩
  have stepFacts : ∀ k, k < N →
      (handleStep^[2*k+1] a0).remainingSteps = N - (k+1) ∧
      (handleStep^[2*k+1] a0).planStepsDone = k + 1 ∧
      (handleStep^[2*k+1] a0).planTotalSteps = N ∧
      ((k+1 < N → (handleStep^[2*k+1] a0).motorEnabled = true ∧
                  (handleStep^[2*k+1] a0).stepHigh = true) ∧
       (k+1 = N → (handleStep^[2*k+1] a0).motorEnabled = false ∧
                  (handleStep^[2*k+1] a0).planActive = false)) := by
    intro k hk
    obtain ⟨i1, i2, i3, i4, i5, i6⟩ := key k hk
    have e0 : 2*k+1 = (2*k)+1 := rfl
    rw [e0, Function.iterate_succ_apply']
    by_cases hlast : k+1 < N
    · have hmid := handleStep_rising_mid i4 i6 (by omega) i5
      obtain ⟨m1, m2, m3, m4, m5, m6⟩ := hmid
      exact ⟨by rw [m1, i1]; omega, by rw [m2, i2], by rw [m3, i3],
             ⟨fun _ => ⟨m4, m6⟩, fun hcon => absurd hcon (by omega)⟩⟩
    · have hkN : k+1 = N := by omega
      have hlastStep := handleStep_rising_last i4 i6 (by omega) i5
      obtain ⟨l1, l2, l3, l4, l5, l6, _⟩ := hlastStep
      exact ⟨by rw [l1]; omega, by rw [l2, i2], by rw [l3, i3],
             ⟨fun hcon => absurd hcon hlast, fun _ => ⟨l4, l5⟩⟩⟩
  refine ⟨?_, ?_⟩
  · intro k hk
    obtain ⟨i1, i2, i3, i4, i5, i6⟩ := key k hk
    obtain ⟨s1, s2, s3, ⟨sEn, sDis⟩⟩ := stepFacts k hk
    refine ⟨⟨i1, i2, i4, i5⟩, s1, s2, ?_, ?_⟩
    · have e1 : 2*k+2 = (2*k+1)+1 := rfl
      rw [e1, Function.iterate_succ_apply']
      by_cases hlast : k+1 < N
      · obtain ⟨hEn', hSh'⟩ := sEn hlast
        obtain ⟨f1, _, _, _, _, _, _, _⟩ := handleStep_falling hEn' hSh'
        rw [f1, s1]
      · obtain ⟨hEn', _⟩ := sDis (by omega)
        rw [handleStep_disabled hEn', s1]
    · have e1 : 2*k+2 = (2*k+1)+1 := rfl
      rw [e1, Function.iterate_succ_apply']
      by_cases hlast : k+1 < N
      · obtain ⟨hEn', hSh'⟩ := sEn hlast
        obtain ⟨_, f2, _, _, _, _, _, _⟩ := handleStep_falling hEn' hSh'
        rw [f2, s2]
      · obtain ⟨hEn', _⟩ := sDis (by omega)
        rw [handleStep_disabled hEn', s2]
  · obtain ⟨s1, s2, s3, ⟨_, sDis⟩⟩ := stepFacts (N-1) (by omega)
    obtain ⟨hEn', hPa'⟩ := sDis (by omega)
    have e2 : 2*(N-1)+1 = 2*N-1 := by omega
    rw [e2] at s1 s2 s3 hEn' hPa'
    have e3 : 2*N = (2*N-1)+1 := by omega
    refine ⟨by rw [s1]; omega, by rw [s2]; omega, s3, hEn', hPa', ?_⟩
    rw [e3, Function.iterate_succ_apply', handleStep_disabled hEn', Nat.add_sub_cancel]

/-- C3 witness: a two-step bounded run reaches the disabled, cleared
state exactly at the third half-period (the second rising edge). -/
theorem C3_witness :
    (handleStep^[2*2-1] { initialAxis with motorEnabled := true, planActive := true, remainingSteps := 2, planTotalSteps := 2 }).remainingSteps = 0 ∧
    (handleStep^[2*2-1] { initialAxis with motorEnabled := true, planActive := true, remainingSteps := 2, planTotalSteps := 2 }).motorEnabled = false ∧
    (handleStep^[2*2-1] { initialAxis with motorEnabled := true, planActive := true, remainingSteps := 2, planTotalSteps := 2 }).planActive = false := by
  have h := (C3_bounded_run_counts { initialAxis with motorEnabled := true, planActive := true, remainingSteps := 2, planTotalSteps := 2 } 2
    rfl rfl rfl rfl rfl rfl (by norm_num)).2
  exact ⟨h.1, h.2.2.2.1, h.2.2.2.2.1⟩

theorem trapezoidSection_off {a : Axis} (h : a.useTrapezoid = false) :
    trapezoidSection a = a := by
  simp [trapezoidSection, h]

/-- The rising-edge work consumes a queued pending update and, when the
queued interval is positive, writes it to the interval and the timer
compare register at that edge. -/
theorem risingWork_pending {b : Axis} (hb : b.pendingIntervalUpdate = true) :
    (risingWork b).pendingIntervalUpdate = false ∧
    (0 < b.pendingIntervalUs →
       (risingWork b).stepInterval = b.pendingIntervalUs ∧
       (risingWork b).ocr = ocr32 b.pendingIntervalUs) := by
  simp only [risingWork]
  split_ifs <;> simp_all

/-- C7: a queued pending interval update is consumed only on a rising
edge of the step output.  A disabled axis is untouched; a falling
half-period leaves the pending pair exactly as queued; a rising
half-period with a queued positive interval clears the flag and writes
the interval to the timer compare register during the edge work (before
the trapezoid section runs), and in constant-speed mode that value is
exactly what the invocation leaves in the interval and register. -/
theorem C7_pending_update_on_rising_edge (a : Axis) :
    (a.motorEnabled = false → handleStep a = a) ∧
    (a.motorEnabled = true → a.stepHigh = true →
       (handleStep a).pendingIntervalUpdate = a.pendingIntervalUpdate ∧
       (handleStep a).pendingIntervalUs = a.pendingIntervalUs) ∧
    (a.motorEnabled = true → a.stepHigh = false → a.pendingIntervalUpdate = true →
       (handleStep a).pendingIntervalUpdate = false ∧
       (0 < a.pendingIntervalUs →
          (risingWork { a with stepHigh := true }).stepInterval = a.pendingIntervalUs ∧
          (risingWork { a with stepHigh := true }).ocr = ocr32 a.pendingIntervalUs) ∧
       (a.useTrapezoid = false → 0 < a.pendingIntervalUs →
          (handleStep a).stepInterval = a.pendingIntervalUs ∧
          (handleStep a).ocr = ocr32 a.pendingIntervalUs)) := by
  refine ⟨fun h => handleStep_disabled h, ?_, ?_⟩
  · intro hen hsh
    have h := handleStep_falling hen hsh
    exact ⟨h.2.2.2.2.2.2.1, h.2.2.2.2.2.2.2⟩
  · intro hen hsh hp
    have hp1 : ({ a with stepHigh := true } : Axis).pendingIntervalUpdate = true := hp
    have hcons := risingWork_pending hp1
    have heq : handleStep a = trapezoidSection (risingWork { a with stepHigh := true }) := by
      simp [handleStep, hen, hsh]
    refine ⟨?_, hcons.2, ?_⟩
    · rw [heq, (trapezoidSection_counts _).2.2.2.2.2.2.1, hcons.1]
    · intro htz hpos
      have htz1 : (risingWork { a with stepHigh := true }).useTrapezoid = false := by
        have : ∀ b : Axis, (risingWork b).useTrapezoid = b.useTrapezoid := by
          intro b
          simp only [risingWork]
          split_ifs <;> rfl
        rw [this]
        exact htz
      rw [heq, trapezoidSection_off htz1]
      exact hcons.2 hpos

/-- C7 witness: an enabled constant-speed axis one half-period before
its rising edge, with a pending interval of 1234 microseconds queued:
the invocation clears the flag and installs 1234. -/
theorem C7_witness :
    (handleStep { initialAxis with motorEnabled := true, pendingIntervalUpdate := true, pendingIntervalUs := 1234 }).pendingIntervalUpdate = false ∧
    (handleStep { initialAxis with motorEnabled := true, pendingIntervalUpdate := true, pendingIntervalUs := 1234 }).stepInterval = 1234 := by
  have h := (C7_pending_update_on_rising_edge { initialAxis with motorEnabled := true, pendingIntervalUpdate := true, pendingIntervalUs := 1234 }).2.2
    rfl rfl rfl
  exact ⟨h.1, (h.2.2 rfl (by norm_num)).1⟩

theorem trapezoidSection_current (a : Axis) :
    (trapezoidSection a).currentSpeedSps =
      if a.useTrapezoid = true ∧ a.motorEnabled = true then nextSpeed a
      else a.currentSpeedSps := by
  simp only [trapezoidSection]
  split_ifs <;> simp_all

/-- In unbounded motion with no pending update and a current speed of at
least 1 steps/s, one scheduler invocation updates the current speed by
the track-to-target rule of the source, whatever the half-period. -/
theorem handleStep_current_unbounded (a : Axis)
    (hen : a.motorEnabled = true) (htz : a.useTrapezoid = true)
    (hrem : a.remainingSteps = 0) (hpend : a.pendingIntervalUpdate = false)
    (hcur : ¬ (a.currentSpeedSps < 1)) :
    (handleStep a).currentSpeedSps =
      (if 0 < a.targetSpeedSps ∧ a.currentSpeedSps < a.targetSpeedSps then
         min (a.currentSpeedSps
               + max a.accelerationSps2 1 * ((a.stepInterval : ℚ) / 2000000))
             a.targetSpeedSps
       else if 0 < a.targetSpeedSps then a.targetSpeedSps
       else a.currentSpeedSps) := by
  cases hsh : a.stepHigh with
  | false =>
      have h2 : risingWork { a with stepHigh := true }
          = { a with stepHigh := true, stepPin := true } := by
        simp [risingWork, hrem, hpend]
      rw [show handleStep a = trapezoidSection (risingWork { a with stepHigh := true }) by
            simp [handleStep, hen, hsh]]
      rw [h2, trapezoidSection_current]
      simp [htz, hen, nextSpeed, hrem, hcur]
  | true =>
      rw [show handleStep a = trapezoidSection (fallingWork { a with stepHigh := false }) by
            simp [handleStep, hen, hsh]]
      rw [show fallingWork { a with stepHigh := false }
            = { a with stepHigh := false, stepPin := false } from rfl]
      rw [trapezoidSection_current]
      simp [htz, hen, nextSpeed, hrem, hcur]

/-- C9 counterexample: an enabled trapezoid-mode axis in unbounded
motion whose current speed 2000 lies above the target 1000 is snapped to
the target in a single half-period: the change is 1000 steps/s, far
more than accel * dt = 4 steps/s, refuting the claim that the ramp is
bounded by accel * dt on both sides of the target. -/
theorem C9_counterexample :
    (handleStep { initialAxis with motorEnabled := true, useTrapezoid := true, currentSpeedSps := 2000, targetSpeedSps := 1000, stepInterval := 2000 }).currentSpeedSps = 1000 ∧
    ({ initialAxis with motorEnabled := true, useTrapezoid := true, currentSpeedSps := 2000, targetSpeedSps := 1000, stepInterval := 2000 } : Axis).currentSpeedSps
      - (handleStep { initialAxis with motorEnabled := true, useTrapezoid := true, currentSpeedSps := 2000, targetSpeedSps := 1000, stepInterval := 2000 }).currentSpeedSps = 1000 ∧
    max ({ initialAxis with motorEnabled := true, useTrapezoid := true, currentSpeedSps := 2000, targetSpeedSps := 1000, stepInterval := 2000 } : Axis).accelerationSps2 1
      * ((({ initialAxis with motorEnabled := true, useTrapezoid := true, currentSpeedSps := 2000, targetSpeedSps := 1000, stepInterval := 2000 } : Axis).stepInterval : ℚ) / 2000000) = 4 ∧
    ¬ ((1000 : ℚ) ≤ 4) := by
  have h := handleStep_current_unbounded
    { initialAxis with motorEnabled := true, useTrapezoid := true, currentSpeedSps := 2000, targetSpeedSps := 1000, stepInterval := 2000 }
    rfl rfl rfl rfl (by norm_num)
  rw [if_neg (by norm_num), if_pos (by norm_num)] at h
  have hmax : max ({ initialAxis with motorEnabled := true, useTrapezoid := true, currentSpeedSps := 2000, targetSpeedSps := 1000, stepInterval := 2000 } : Axis).accelerationSps2 1 = 4000 :=
    max_eq_left (by norm_num [initialAxis])
  refine ⟨h, by rw [h]; norm_num, ?_, by norm_num⟩
  rw [hmax]
  norm_num

/-- C9 (amended): in unbounded trapezoid-mode motion with a positive
target and a current speed of at least 1 steps/s, a scheduler invocation
ramps a below-target speed up by accel * dt clamped at the target (so
the increase never exceeds accel * dt and the target is never
overshot); a speed at or above the target is set to the target
immediately, not gradually. -/
theorem C9_unbounded_ramp_clamped (a : Axis)
    (hen : a.motorEnabled = true) (htz : a.useTrapezoid = true)
    (hrem : a.remainingSteps = 0) (hpend : a.pendingIntervalUpdate = false)
    (hcur : 1 ≤ a.currentSpeedSps) (htar : 0 < a.targetSpeedSps) :
    (a.currentSpeedSps < a.targetSpeedSps →
       (handleStep a).currentSpeedSps
         = min (a.currentSpeedSps
                 + max a.accelerationSps2 1 * ((a.stepInterval : ℚ) / 2000000))
               a.targetSpeedSps ∧
       (handleStep a).currentSpeedSps ≤ a.targetSpeedSps ∧
       (handleStep a).currentSpeedSps - a.currentSpeedSps
         ≤ max a.accelerationSps2 1 * ((a.stepInterval : ℚ) / 2000000)) ∧
    (a.targetSpeedSps ≤ a.currentSpeedSps →
       (handleStep a).currentSpeedSps = a.targetSpeedSps) := by
  have h := handleStep_current_unbounded a hen htz hrem hpend (not_lt.2 hcur)
  constructor
  · intro hlt
    rw [h, if_pos ⟨htar, hlt⟩]
    refine ⟨rfl, min_le_right _ _, ?_⟩
    have := min_le_left (a.currentSpeedSps
      + max a.accelerationSps2 1 * ((a.stepInterval : ℚ) / 2000000)) a.targetSpeedSps
    linarith
  · intro hge
    rw [h, if_neg (fun hc => absurd hc.2 (not_lt.2 hge)), if_pos htar]

/-- C9 witness: ramping up from 500 toward 1000 steps/s stays clamped at
the target. -/
theorem C9_witness :
    (handleStep { initialAxis with motorEnabled := true, useTrapezoid := true, currentSpeedSps := 500, targetSpeedSps := 1000, stepInterval := 2000 }).currentSpeedSps ≤ 1000 :=
  ((C9_unbounded_ramp_clamped
      { initialAxis with motorEnabled := true, useTrapezoid := true, currentSpeedSps := 500, targetSpeedSps := 1000, stepInterval := 2000 }
      rfl rfl rfl rfl (by norm_num) (by norm_num)).1 (by norm_num)).2.1

theorem div150000_mod_pos {v : ℕ} (h1 : 1 ≤ v) (h2 : v ≤ 150000) :
    0 < 150000 / v % 65536 := by
  rcases Nat.lt_or_ge v 3 with hv | hv
  · interval_cases v <;> decide
  · have hle : 150000 / v ≤ 150000 / 3 := Nat.div_le_div_left hv (by norm_num)
    have hpos : 0 < 150000 / v := Nat.div_pos h2 (by omega)
    have : 150000 / v < 65536 := by omega
    rwa [Nat.mod_eq_of_lt this]

theorem rpmToIntervalUs_eq {v : ℤ} (hv : 0 < v) :
    rpmToIntervalUs v = 150000 / v.toNat % 65536 := by
  have hvq : ((v.toNat : ℕ) : ℚ) = (v : ℚ) := by
    exact_mod_cast congrArg (fun x : ℤ => (x : ℚ)) (Int.toNat_of_nonneg hv.le)
  have hvne : ((v : ℤ) : ℚ) ≠ 0 := by
    exact_mod_cast hv.ne.symm
  have harg : (1000000 : ℚ) / (((v * (stepsPerRev : ℤ) : ℤ) : ℚ) / 60)
      = ((150000 : ℕ) : ℚ) / ((v.toNat : ℕ) : ℚ) := by
    rw [hvq, stepsPerRev]
    push_cast
    field_simp
    ring
  rw [rpmToIntervalUs, if_neg (not_le.2 hv), harg, castU16_natDiv]

theorem spsToIntervalUs_form (v : ℕ) (h1 : 1 ≤ v) :
    spsToIntervalUs (20 * (v : ℚ) / 3) = 150000 / v % 65536 := by
  have hvq : (0 : ℚ) < (v : ℕ) := by exact_mod_cast h1
  have hpos : (0 : ℚ) < 20 * (v : ℚ) / 3 := by positivity
  have harg : (1000000 : ℚ) / (20 * (v : ℚ) / 3)
      = ((150000 : ℕ) : ℚ) / ((v : ℕ) : ℚ) := by
    push_cast
    field_simp
    ring
  rw [spsToIntervalUs, if_neg (not_le.2 hpos), harg, castU16_natDiv]

theorem spsToIntervalUs_500 : spsToIntervalUs 500 = 2000 := by
  have h : (1000000 : ℚ) / 500 = ((2000 : ℕ) : ℚ) / ((1 : ℕ) : ℚ) := by norm_num
  rw [spsToIntervalUs, if_neg (by norm_num), h, castU16_natDiv]

/-- The positive-interval half of the invariant for any installable
target speed. -/
theorem spsToIntervalUs_target_pos {t : ℚ} (h : TargetForm t) :
    0 < spsToIntervalUs t := by
  obtain ⟨v, h1, h2, ht⟩ := h
  rw [ht, spsToIntervalUs_form v h1]
  exact div150000_mod_pos h1 h2

theorem TargetForm_pos {t : ℚ} (h : TargetForm t) : 0 < t := by
  obtain ⟨v, h1, _, ht⟩ := h
  have : (0 : ℚ) < (v : ℕ) := by exact_mod_cast h1
  rw [ht]
  positivity

theorem startCommand_inv (v : ℤ) (a : Axis)
    (hi : 0 < a.stepInterval) (ht : TargetForm a.targetSpeedSps) :
    0 < (startCommand v a).stepInterval ∧
    (startCommand v a).targetSpeedSps = a.targetSpeedSps := by
  have hcurpos : 0 < spsToIntervalUs (startCur a.targetSpeedSps) := by
    rw [startCur]
    split_ifs with hc
    · exact spsToIntervalUs_target_pos ht
    · rw [show minStartSpeedSps = (500 : ℚ) from rfl, spsToIntervalUs_500]
      norm_num
  simp only [startCommand]
  split_ifs <;> simp_all

theorem speedCommand_inv (v : ℤ) (a : Axis) (hb : v ≤ 150000)
    (hi : 0 < a.stepInterval) (ht : TargetForm a.targetSpeedSps) :
    0 < (speedCommand v a).stepInterval ∧
    TargetForm ((speedCommand v a).targetSpeedSps) := by
  by_cases hv : 0 < v
  · have htf : TargetForm (rpmToSps v) := by
      refine ⟨v.toNat, by omega, by omega, ?_⟩
      rw [rpmToSps, if_neg (not_le.2 hv), stepsPerRev]
      have hq : ((v.toNat : ℕ) : ℚ) = (v : ℚ) := by
        exact_mod_cast congrArg (fun x : ℤ => (x : ℚ)) (Int.toNat_of_nonneg hv.le)
      rw [hq]
      push_cast
      ring
    have hipos : 0 < rpmToIntervalUs v := by
      rw [rpmToIntervalUs_eq hv]
      exact div150000_mod_pos (by omega) (by omega)
    simp only [speedCommand]
    split_ifs <;> simp_all
  · simp only [speedCommand]
    rw [if_neg hv]
    exact ⟨hi, ht⟩

theorem trapToggleCommand_inv (v : ℤ) (a : Axis)
    (hi : 0 < a.stepInterval) (ht : TargetForm a.targetSpeedSps) :
    0 < (trapToggleCommand v a).stepInterval ∧
    (trapToggleCommand v a).targetSpeedSps = a.targetSpeedSps := by
  have hpos : 0 < spsToIntervalUs a.targetSpeedSps := spsToIntervalUs_target_pos ht
  simp only [trapToggleCommand]
  split_ifs <;> simp_all

theorem risingWork_inv (a : Axis) (hi : 0 < a.stepInterval) :
    0 < (risingWork a).stepInterval ∧
    (risingWork a).targetSpeedSps = a.targetSpeedSps := by
  simp only [risingWork]
  split_ifs <;> simp_all

theorem trapezoidSection_inv (a : Axis) (hi : 0 < a.stepInterval) :
    0 < (trapezoidSection a).stepInterval ∧
    (trapezoidSection a).targetSpeedSps = a.targetSpeedSps := by
  simp only [trapezoidSection]
  split_ifs <;> simp_all

/-- The scheduler can only replace a positive half-period interval by
another positive one (both the pending-update path and the trapezoid
path are guarded), and it never writes the target speed. -/
theorem handleStep_inv (a : Axis) (hi : 0 < a.stepInterval) :
    0 < (handleStep a).stepInterval ∧
    (handleStep a).targetSpeedSps = a.targetSpeedSps := by
  simp only [handleStep]
  split_ifs with hen hsh
  · obtain ⟨r1, r2⟩ := risingWork_inv { a with stepHigh := !a.stepHigh } hi
    obtain ⟨t1, t2⟩ := trapezoidSection_inv _ r1
    exact ⟨t1, by rw [t2, r2]⟩
  · obtain ⟨t1, t2⟩ := trapezoidSection_inv (fallingWork { a with stepHigh := !a.stepHigh }) hi
    exact ⟨t1, t2⟩
  · exact ⟨hi, rfl⟩

theorem inv_update {s : Sys} (h : IntervalInv s) (i : Fin 3) (g : Axis → Axis)
    (hg : 0 < (g (s.axes i)).stepInterval ∧ TargetForm ((g (s.axes i)).targetSpeedSps)) :
    IntervalInv { s with axes := Function.update s.axes i (g (s.axes i)) } := by
  intro j
  by_cases hj : j = i
  · subst hj
    simpa [Function.update_same] using hg
  · simpa [Function.update_noteq hj] using h j

theorem stepSys_inv (i : Fin 3) (s : Sys) (h : IntervalInv s) :
    IntervalInv (stepSys i s) := by
  intro j
  rw [stepSys]
  by_cases hj : j = i
  · subst hj
    obtain ⟨h1, h2⟩ := h j
    obtain ⟨k1, k2⟩ := handleStep_inv (s.axes j) h1
    refine ⟨by simpa [Function.update_same] using k1, ?_⟩
    simpa [Function.update_same, k2] using h2
  · simpa [Function.update_noteq hj] using h j

theorem processCommand_inv (f : Frame) (s : Sys) (hok : frameOk f)
    (h : IntervalInv s) : IntervalInv (processCommand f s).1 := by
  by_cases h0 : f 0 ≠ 2 ∨ f 10 ≠ 3
  · rw [processCommand_bad_markers s h0]
    exact h
  by_cases hcs : checksum8 f ≠ f 9
  · rw [processCommand_bad_checksum s hcs]
    exact h
  by_cases hax : (f 1 : ℤ) - 48 < 1 ∨ 3 < (f 1 : ℤ) - 48
  · rw [processCommand_bad_axis s hax]
    exact h
  simp only [processCommand, if_neg h0, if_neg hcs, dif_neg hax]
  by_cases hM : f 2 = 77
  · rw [if_pos hM]
    exact inv_update h _ (startCommand (atol (valueBytes f))) (by
      obtain ⟨h1, h2⟩ := h ⟨f 1 - 49, by omega⟩
      obtain ⟨k1, k2⟩ := startCommand_inv (atol (valueBytes f)) _ h1 h2
      exact ⟨k1, by rw [k2]; exact h2⟩)
  rw [if_neg hM]
  by_cases hS : f 2 = 83
  · rw [if_pos hS]
    exact inv_update h _ stopCommand (h ⟨f 1 - 49, by omega⟩)
  rw [if_neg hS]
  by_cases hF : f 2 = 70
  · rw [if_pos hF]
    exact inv_update h _ (fun x => { x with dirHigh := true }) (h ⟨f 1 - 49, by omega⟩)
  rw [if_neg hF]
  by_cases hR : f 2 = 82
  · rw [if_pos hR]
    exact inv_update h _ (fun x => { x with dirHigh := false }) (h ⟨f 1 - 49, by omega⟩)
  rw [if_neg hR]
  by_cases hV : f 2 = 86
  · rw [if_pos hV]
    exact inv_update h _ (speedCommand (atol (valueBytes f))) (by
      obtain ⟨h1, h2⟩ := h ⟨f 1 - 49, by omega⟩
      exact speedCommand_inv (atol (valueBytes f)) _ (hok hV) h1 h2)
  rw [if_neg hV]
  by_cases hE : f 2 = 69
  · rw [if_pos hE]
    exact inv_update h _ (fun x => { x with enaHigh := false }) (h ⟨f 1 - 49, by omega⟩)
  rw [if_neg hE]
  by_cases hD : f 2 = 68
  · rw [if_pos hD]
    exact inv_update h _ (fun x => { x with enaHigh := true }) (h ⟨f 1 - 49, by omega⟩)
  rw [if_neg hD]
  by_cases hA : f 2 = 65
  · rw [if_pos hA]
    exact inv_update h _ (trapToggleCommand (atol (valueBytes f))) (by
      obtain ⟨h1, h2⟩ := h ⟨f 1 - 49, by omega⟩
      obtain ⟨k1, k2⟩ := trapToggleCommand_inv (atol (valueBytes f)) _ h1 h2
      exact ⟨k1, by rw [k2]; exact h2⟩)
  rw [if_neg hA]
  by_cases hC : f 2 = 67
  · rw [if_pos hC]
    exact h
  rw [if_neg hC]
  by_cases hX : f 2 = 88
  · rw [if_pos hX]
    exact h
  rw [if_neg hX]
  exact h

theorem initialSys_inv : IntervalInv initialSys := by
  intro i
  constructor
  · show 0 < rpmToIntervalUs 200
    rw [rpmToIntervalUs_eq (by norm_num)]
    decide
  · refine ⟨200, by norm_num, by norm_num, ?_⟩
    show rpmToSps 200 = 20 * ((200 : ℕ) : ℚ) / 3
    rw [rpmToSps, if_neg (by norm_num), stepsPerRev]
    norm_num

theorem reachableBounded_inv {s : Sys} (h : ReachableBounded s) : IntervalInv s := by
  induction h with
  | init => exact initialSys_inv
  | cmd f hok _ ih => exact processCommand_inv f _ hok ih
  | step i _ ih => exact stepSys_inv i _ ih

theorem startCommand_useTrapezoid (v : ℤ) (a : Axis) :
    (startCommand v a).useTrapezoid = a.useTrapezoid := by
  simp only [startCommand]
  split_ifs <;> rfl

theorem speedCommand_motorEnabled (v : ℤ) (a : Axis) :
    (speedCommand v a).motorEnabled = a.motorEnabled := by
  simp only [speedCommand]
  split_ifs <;> rfl

/-- The handler's dispatch of a valid speed frame for axis 1. -/
theorem processCommand_speed {f : Frame} (s : Sys)
    (h0 : f 0 = 2) (h10 : f 10 = 3) (hcs : checksum8 f = f 9)
    (h1 : f 1 = 49) (hV : f 2 = 86) :
    (processCommand f s).1.axes 0
      = speedCommand (atol (valueBytes f)) (s.axes 0) := by
  simp [processCommand, h0, h10, hcs, h1, hV]

/-- C6 counterexample: starting axis 1 (constant-speed mode) and then
sending a speed command of 999999 rpm reaches a state — expressible by
two protocol frames from reset — in which the axis is still enabled but
its stepIntervalUs is 0: the implied step rate exceeds one step per
microsecond, and the interval truncates to zero. -/
theorem C6_counterexample :
    Reachable (processCommand (![2, 49, 86, 57, 57, 57, 57, 57, 57, 103, 3])
      (processCommand (![2, 49, 77, 48, 48, 48, 49, 48, 48, 125, 3]) initialSys).1).1 ∧
    (((processCommand (![2, 49, 86, 57, 57, 57, 57, 57, 57, 103, 3])
      (processCommand (![2, 49, 77, 48, 48, 48, 49, 48, 48, 125, 3]) initialSys).1).1.axes 0).motorEnabled = true) ∧
    (((processCommand (![2, 49, 86, 57, 57, 57, 57, 57, 57, 103, 3])
      (processCommand (![2, 49, 77, 48, 48, 48, 49, 48, 48, 125, 3]) initialSys).1).1.axes 0).stepInterval = 0) := by
  have hm : (processCommand (![2, 49, 77, 48, 48, 48, 49, 48, 48, 125, 3]) initialSys).1.axes 0
      = startCommand 100 initialAxis := by
    have hp := processCommand_start (f := ![2, 49, 77, 48, 48, 48, 49, 48, 48, 125, 3])
      initialSys (by decide) (by decide) (by decide) (by decide) (by decide)
    rwa [show atol (valueBytes (![2, 49, 77, 48, 48, 48, 49, 48, 48, 125, 3])) = 100 from by decide] at hp
  have hv : (processCommand (![2, 49, 86, 57, 57, 57, 57, 57, 57, 103, 3])
      (processCommand (![2, 49, 77, 48, 48, 48, 49, 48, 48, 125, 3]) initialSys).1).1.axes 0
      = speedCommand 999999 (startCommand 100 initialAxis) := by
    have hp := processCommand_speed (f := ![2, 49, 86, 57, 57, 57, 57, 57, 57, 103, 3])
      (processCommand (![2, 49, 77, 48, 48, 48, 49, 48, 48, 125, 3]) initialSys).1
      (by decide) (by decide) (by decide) (by decide) (by decide)
    rwa [show atol (valueBytes (![2, 49, 86, 57, 57, 57, 57, 57, 57, 103, 3])) = 999999 from by decide,
         hm] at hp
  refine ⟨Reachable.cmd _ (Reachable.cmd _ Reachable.init), ?_, ?_⟩
  · rw [hv, speedCommand_motorEnabled, startCommand_motorEnabled]
  · have htz : (startCommand 100 initialAxis).useTrapezoid = false := by
      rw [startCommand_useTrapezoid]
      rfl
    rw [hv]
    simp only [speedCommand, if_pos (show (0:ℤ) < 999999 by norm_num), htz,
      Bool.false_eq_true, if_false]
    show rpmToIntervalUs 999999 = 0
    rw [rpmToIntervalUs_eq (by norm_num)]
    decide

/-- C6 (amended): with every speed command bounded by 150000 rpm (one
step per microsecond), every reachable state keeps a positive
stepIntervalUs on every axis — in particular on every enabled axis. -/
theorem C6_enabled_interval_positive (s : Sys) (h : ReachableBounded s) (i : Fin 3)
    (hen : (s.axes i).motorEnabled = true) : 0 < (s.axes i).stepInterval :=
  (reachableBounded_inv h i).1

/-- C6 witness: after a bounded in-range start command on axis 1 the
axis is enabled and its interval is positive. -/
theorem C6_witness :
    0 < (((processCommand (![2, 49, 77, 48, 48, 48, 49, 48, 48, 125, 3]) initialSys).1.axes 0).stepInterval) := by
  have hm : (processCommand (![2, 49, 77, 48, 48, 48, 49, 48, 48, 125, 3]) initialSys).1.axes 0
      = startCommand 100 initialAxis := by
    have hp := processCommand_start (f := ![2, 49, 77, 48, 48, 48, 49, 48, 48, 125, 3])
      initialSys (by decide) (by decide) (by decide) (by decide) (by decide)
    rwa [show atol (valueBytes (![2, 49, 77, 48, 48, 48, 49, 48, 48, 125, 3])) = 100 from by decide] at hp
  exact C6_enabled_interval_positive _
    (ReachableBounded.cmd _ (by intro hc; exact absurd hc (by decide)) ReachableBounded.init) 0
    (by rw [hm, startCommand_motorEnabled])

end Kousoku
